import Mathlib

/-!
Shallow embedding of the core of the `stock-analysis-tool` repository:
the backtest engine (`src/core/backtest/engine.py`, `BacktestEngine.run`),
the rule-based strategy's signal computation
(`src/core/strategy/rule_based.py`, `RuleBasedStrategy.compute_signals`),
and the performance-metric calculators
(`src/core/backtest/metrics.py`, `compute_metrics` / `compute_metrics_legacy`).

Prices, cash and share quantities are modelled as rationals (the Python code
uses floats; all engine arithmetic is field arithmetic, so ℚ is the exact
model).  Metric formulas that take real powers are modelled over ℝ.
Pandas `NaN` entries in indicator series are modelled as `Option.none`,
with the pandas rule that any comparison against `NaN` is `False`.
-/

namespace StockAnalysis

/-- Signal actions, the values of the `action` column. -/
inductive Action where
  | BUY : Action
  | SELL : Action
  | HOLD : Action
deriving DecidableEq

/-- Engine position state: the Python engine's `pos` variable uses `0` for
flat and `1` for long (shorts are never produced). -/
inductive Pos where
  | flat : Pos
  | long : Pos
deriving DecidableEq

/-- One bar of market data.  Only the `Open` and `Close` columns are read by
`BacktestEngine.run`; the bar's position in the list is its date index. -/
structure Bar where
  openPx : ℚ
  closePx : ℚ
deriving DecidableEq

/-- A trade record as appended by the engine:
`{"date": today, "action": ..., "price": open_px, "shares": shares}`. -/
structure Trade where
  date : ℕ
  action : Action
  price : ℚ
  shares : ℚ
deriving DecidableEq

/-- An equity-curve point: `{"date": today, "equity": eq}`. -/
structure EquityPoint where
  date : ℕ
  equity : ℚ
deriving DecidableEq

/-- The engine's loop state: position, cash, shares, plus the `trades` and
`equity` lists accumulated so far. -/
structure EngState where
  pos : Pos
  cash : ℚ
  shares : ℚ
  trades : List Trade
  equity : List EquityPoint
deriving DecidableEq

/-- The signal looked up at bar index `j`:
`sig["action"].reindex(data.index).fillna("HOLD")` — a missing entry is
`HOLD`.  Signal rows are aligned positionally with the bar rows. -/
def sigAt (sigs : List Action) (j : ℕ) : Action :=
  sigs.getD j Action.HOLD

/-- One iteration of the engine loop body for bar `i` (`i ≥ 1`), where `a` is
`signal_shift` at `i`, i.e. the signal recorded at bar `i - 1`.  Mirrors the
body of the `for i in range(1, len(data))` loop in `BacktestEngine.run`:
a BUY fill while flat, a SELL fill while long, otherwise a no-op; in every
case an equity point `cash + shares * Close[i]` is appended. -/
def step (feeBps slipBps : ℚ) (i : ℕ) (b : Bar) (a : Action) (s : EngState) : EngState :=
  let s1 :=
    if a = Action.BUY ∧ s.pos = Pos.flat then
      let fee := b.openPx * (feeBps + slipBps) / 10000
      let sh := s.cash / (b.openPx + fee)
      { pos := Pos.long, cash := 0, shares := sh,
        trades := s.trades ++ [{ date := i, action := Action.BUY, price := b.openPx, shares := sh }],
        equity := s.equity }
    else if a = Action.SELL ∧ s.pos = Pos.long then
      let fee := b.openPx * (feeBps + slipBps) / 10000
      { pos := Pos.flat, cash := s.shares * (b.openPx - fee), shares := 0,
        trades := s.trades ++ [{ date := i, action := Action.SELL, price := b.openPx, shares := s.shares }],
        equity := s.equity }
    else s
  { s1 with equity := s1.equity ++ [{ date := i, equity := s1.cash + s1.shares * b.closePx }] }

/-- The default bar used for out-of-range reads (never reached on the
in-range indices the loop visits). -/
def dBar : Bar := { openPx := 0, closePx := 0 }

/-- The engine state after the loop has processed bars `1, …, min t (n-1)`
of `bars` (`n := bars.length`): `stateAt … 0` is the initial state
(`pos = 0`, `cash = initial_capital`, `shares = 0.0`), and processing bar
`t+1` applies `step` with the signal recorded at bar `t`. -/
def stateAt (bars : List Bar) (sigs : List Action) (cap feeBps slipBps : ℚ) : ℕ → EngState
  | 0 => { pos := Pos.flat, cash := cap, shares := 0, trades := [], equity := [] }
  | t + 1 =>
    let s := stateAt bars sigs cap feeBps slipBps t
    if t + 1 < bars.length then
      step feeBps slipBps (t + 1) (bars.getD (t + 1) dBar) (sigAt sigs t) s
    else s

/-- The exceptions `BacktestEngine.run` can raise: the explicit
`ValueError("데이터/시그널이 비어있습니다")` on empty input, and the `KeyError`
raised by `pd.DataFrame(equity).set_index("date")` when the loop produced no
equity rows (an empty frame has no `date` column). -/
inductive RunError where
  | valueError : String → RunError
  | keyError : String → RunError
deriving DecidableEq

/-- `BacktestEngine.run(df, signals, initial_capital, fee_bps, slippage_bps)`:
returns the trade list and the equity curve, or the exception raised. -/
def run (bars : List Bar) (sigs : List Action) (cap feeBps slipBps : ℚ) :
    Except RunError (List Trade × List EquityPoint) :=
  if bars.isEmpty ∨ sigs.isEmpty then
    Except.error (RunError.valueError "데이터/시그널이 비어있습니다")
  else
    let fin := stateAt bars sigs cap feeBps slipBps (bars.length - 1)
    if fin.equity.isEmpty then Except.error (RunError.keyError "date")
    else Except.ok (fin.trades, fin.equity)

/-- The trade list of a successful run (`[]` if the run raised). -/
def runTradesD (bars : List Bar) (sigs : List Action) (cap feeBps slipBps : ℚ) : List Trade :=
  match run bars sigs cap feeBps slipBps with
  | Except.ok r => r.1
  | Except.error _ => []

/-- The final value of the equity curve of a successful run
(`0` if the run raised). -/
def lastEquityD (bars : List Bar) (sigs : List Action) (cap feeBps slipBps : ℚ) : ℚ :=
  match run bars sigs cap feeBps slipBps with
  | Except.ok r => (r.2.getLastD { date := 0, equity := 0 }).equity
  | Except.error _ => 0

/-!
### Rule-based strategy (`RuleBasedStrategy.compute_signals`)

The strategy reads only the `Close` column for its decision logic; the other
required columns (`Open`, `Daily_Return`, `Volatility`) are checked for
presence but never read.  Indicator series with pandas `NaN` entries are
`Option ℚ`-valued; a comparison against `NaN` is `False`.  Output rows carry
the fields the claims are about (`Close` and `action`); the decorative
output columns (`confidence`, `reason`, `stop`, `target`, `size`) are not
modelled.  Parameters other than `warmup` are fixed at their defaults
(`rsi_buy = 30`, `rsi_sell = 70`), as in the claims.
-/

/-- The strategy's input frame: the `Close` column's values plus presence
flags for the four required columns (when `hasClose = false` the `close`
list is irrelevant: the code raises before reading it). -/
structure BarsFrame where
  close : List ℚ
  hasClose : Bool
  hasOpen : Bool
  hasDailyReturn : Bool
  hasVolatility : Bool
deriving DecidableEq

/-- The first required column missing from the frame, in the order the code
checks them (`["Close", "Open", "Daily_Return", "Volatility"]`), if any. -/
def missingCol (b : BarsFrame) : Option String :=
  if !b.hasClose then some "Close"
  else if !b.hasOpen then some "Open"
  else if !b.hasDailyReturn then some "Daily_Return"
  else if !b.hasVolatility then some "Volatility"
  else none

/-- `Close` at index `j` (indices are always in range where this is used). -/
def closeAt (cs : List ℚ) (j : ℕ) : ℚ := cs.getD j 0

/-- The indices of the rolling window of width `w` ending at index `i`. -/
def windowIdxs (w i : ℕ) : List ℕ := List.range' (i + 1 - w) (min w (i + 1))

/-- `series.rolling(w, min_periods=1).mean()` at index `i`: the mean of the
non-`NaN` entries of the trailing window, `NaN` if there are none. -/
def rollMean (w : ℕ) (f : ℕ → Option ℚ) (i : ℕ) : Option ℚ :=
  let vs := (windowIdxs w i).filterMap f
  if vs.length = 0 then none else some (vs.sum / (vs.length : ℚ))

/-- `series.shift(1)` at index `i`. -/
def shiftO (f : ℕ → Option ℚ) (i : ℕ) : Option ℚ :=
  if i = 0 then none else f (i - 1)

/-- `series.shift(2)` at index `i`. -/
def shift2O (f : ℕ → Option ℚ) (i : ℕ) : Option ℚ :=
  if i ≤ 1 then none else f (i - 2)

/-- `s["ma50"] = s["Close"].rolling(50, min_periods=1).mean().shift(1)`. -/
def ma50 (cs : List ℚ) (i : ℕ) : Option ℚ :=
  shiftO (rollMean 50 (fun j => some (closeAt cs j))) i

/-- `s["ma200"] = s["Close"].rolling(200, min_periods=1).mean().shift(1)`. -/
def ma200 (cs : List ℚ) (i : ℕ) : Option ℚ :=
  shiftO (rollMean 200 (fun j => some (closeAt cs j))) i

/-- `delta = s["Close"].diff()`. -/
def deltaO (cs : List ℚ) (i : ℕ) : Option ℚ :=
  if i = 0 then none else some (closeAt cs i - closeAt cs (i - 1))

/-- `gain = delta.clip(lower=0).rolling(14, min_periods=1).mean()`. -/
def gain (cs : List ℚ) (i : ℕ) : Option ℚ :=
  rollMean 14 (fun j => (deltaO cs j).map (fun d => max d 0)) i

/-- `loss = (-delta.clip(upper=0)).rolling(14, min_periods=1).mean()`. -/
def loss (cs : List ℚ) (i : ℕ) : Option ℚ :=
  rollMean 14 (fun j => (deltaO cs j).map (fun d => -(min d 0))) i

/-- `loss.replace(0, np.nan)`. -/
def lossRepl (cs : List ℚ) (i : ℕ) : Option ℚ :=
  (loss cs i).bind (fun x => if x = 0 then none else some x)

/-- `rs = gain / loss.replace(0, np.nan)` (`NaN` if either side is). -/
def rsSeries (cs : List ℚ) (i : ℕ) : Option ℚ :=
  match gain cs i, lossRepl cs i with
  | some g, some l => some (g / l)
  | _, _ => none

/-- `s["rsi"] = (100 - (100 / (1 + rs))).shift(1)`. -/
def rsi (cs : List ℚ) (i : ℕ) : Option ℚ :=
  shiftO (fun j => (rsSeries cs j).map (fun r => 100 - 100 / (1 + r))) i

/-- `s["Close"].ewm(span, adjust=False).mean()` with `α = 2/(span+1)`:
`y₀ = x₀`, `yₜ = (1-α)·yₜ₋₁ + α·xₜ`. -/
def ewma (a : ℚ) (cs : List ℚ) : ℕ → ℚ
  | 0 => closeAt cs 0
  | i + 1 => (1 - a) * ewma a cs i + a * closeAt cs (i + 1)

/-- `macd_line = ewm(span=12) - ewm(span=26)` of `Close`. -/
def macdLine (cs : List ℚ) (i : ℕ) : ℚ :=
  ewma (2/13) cs i - ewma (2/27) cs i

/-- `signal_line = macd_line.ewm(span=9, adjust=False).mean()` (`α = 1/5`). -/
def signalLine (cs : List ℚ) : ℕ → ℚ
  | 0 => macdLine cs 0
  | i + 1 => (1 - 1/5) * signalLine cs i + (1/5) * macdLine cs (i + 1)

/-- `macd_now = macd_line.shift(1)`. -/
def macdNow (cs : List ℚ) (i : ℕ) : Option ℚ :=
  shiftO (fun j => some (macdLine cs j)) i

/-- `signal_now = signal_line.shift(1)`. -/
def signalNow (cs : List ℚ) (i : ℕ) : Option ℚ :=
  shiftO (fun j => some (signalLine cs j)) i

/-- `macd_prev = macd_line.shift(2)`. -/
def macdPrev (cs : List ℚ) (i : ℕ) : Option ℚ :=
  shift2O (fun j => some (macdLine cs j)) i

/-- `signal_prev = signal_line.shift(2)`. -/
def signalPrev (cs : List ℚ) (i : ℕ) : Option ℚ :=
  shift2O (fun j => some (signalLine cs j)) i

/-- Pandas `<` on possibly-`NaN` values: `False` whenever a side is `NaN`. -/
def oLt : Option ℚ → Option ℚ → Bool
  | some a, some b => decide (a < b)
  | _, _ => false

/-- Pandas `<=` on possibly-`NaN` values: `False` whenever a side is `NaN`. -/
def oLe : Option ℚ → Option ℚ → Bool
  | some a, some b => decide (a ≤ b)
  | _, _ => false

/-- Pandas `>` on possibly-`NaN` values. -/
def oGt (a b : Option ℚ) : Bool := oLt b a

/-- Pandas `>=` on possibly-`NaN` values. -/
def oGe (a b : Option ℚ) : Bool := oLe b a

/-- `s["macd_cross"] = (macd_now > signal_now).astype(int)`, as a Bool
(`true` ↔ the column holds `1`). -/
def macdCross (cs : List ℚ) (i : ℕ) : Bool :=
  oGt (macdNow cs i) (signalNow cs i)

/-- `macd_up = s["macd_cross"] == 1`. -/
def macdUp (cs : List ℚ) (i : ℕ) : Bool := macdCross cs i

/-- `macd_down = s["macd_cross"] == 0`. -/
def macdDown (cs : List ℚ) (i : ℕ) : Bool := !(macdCross cs i)

/-- `macd_cross_up_evt = (macd_now > signal_now) & (macd_prev <= signal_prev)`. -/
def upEvt (cs : List ℚ) (i : ℕ) : Bool :=
  oGt (macdNow cs i) (signalNow cs i) && oLe (macdPrev cs i) (signalPrev cs i)

/-- `macd_cross_dn_evt = (macd_now < signal_now) & (macd_prev >= signal_prev)`. -/
def dnEvt (cs : List ℚ) (i : ℕ) : Bool :=
  oLt (macdNow cs i) (signalNow cs i) && oGe (macdPrev cs i) (signalPrev cs i)

/-- `has_ma200 = s["ma200"].notna()`. -/
def hasMa200 (cs : List ℚ) (i : ℕ) : Bool := (ma200 cs i).isSome

/-- `trend_up = np.where(has_ma200, ma50 > ma200, Close > ma50)`. -/
def trendUp (cs : List ℚ) (i : ℕ) : Bool :=
  if hasMa200 cs i then oGt (ma50 cs i) (ma200 cs i)
  else oGt (some (closeAt cs i)) (ma50 cs i)

/-- `trend_down = np.where(has_ma200, ma50 < ma200, Close < ma50)`. -/
def trendDown (cs : List ℚ) (i : ℕ) : Bool :=
  if hasMa200 cs i then oLt (ma50 cs i) (ma200 cs i)
  else oLt (some (closeAt cs i)) (ma50 cs i)

/-- `oversold = s["rsi"] <= 30` (default `rsi_buy`). -/
def oversold (cs : List ℚ) (i : ℕ) : Bool := oLe (rsi cs i) (some 30)

/-- `overbought = s["rsi"] >= 70` (default `rsi_sell`). -/
def overbought (cs : List ℚ) (i : ℕ) : Bool := oGe (rsi cs i) (some 70)

/-- `buy_rule = (trend_up & (oversold | macd_up)) | macd_cross_up_evt`. -/
def buyRule (cs : List ℚ) (i : ℕ) : Bool :=
  (trendUp cs i && (oversold cs i || macdUp cs i)) || upEvt cs i

/-- `sell_rule = (trend_down & (overbought | macd_down)) | macd_cross_dn_evt`. -/
def sellRule (cs : List ℚ) (i : ℕ) : Bool :=
  (trendDown cs i && (overbought cs i || macdDown cs i)) || dnEvt cs i

/-- `action = np.where(buy_rule, "BUY", np.where(sell_rule, "SELL", "HOLD"))`. -/
def actionAt (cs : List ℚ) (i : ℕ) : Action :=
  if buyRule cs i then Action.BUY
  else if sellRule cs i then Action.SELL
  else Action.HOLD

/-- One output row of `compute_signals` (the fields the claims are about). -/
structure SigRow where
  close : ℚ
  action : Action
deriving DecidableEq

/-- The full (pre-warmup) output frame `out`: one row per input bar. -/
def rowsOf (cs : List ℚ) : List SigRow :=
  (List.range cs.length).map (fun i => { close := closeAt cs i, action := actionAt cs i })

/-- The warmup trimming epilogue shared by the strategies:
`if len(res) == 0: return res`; `if len(res) <= warmup: return res.tail(1)`;
`return res.iloc[warmup:]`. -/
def warmupTrim {α : Type} (warmup : ℕ) (rows : List α) : List α :=
  match rows with
  | [] => []
  | r :: rest =>
    if (r :: rest).length ≤ warmup then [(r :: rest).getLast (by simp)]
    else (r :: rest).drop warmup

/-- `RuleBasedStrategy.compute_signals(df, params)` with default parameters
except `warmup`: raises `ValueError("필수 컬럼 없음: <col>")` on the first
missing required column, otherwise returns the trimmed signal frame. -/
def compute_signals (b : BarsFrame) (warmup : ℕ) : Except String (List SigRow) :=
  match missingCol b with
  | some c => Except.error ("필수 컬럼 없음: " ++ c)
  | none => Except.ok (warmupTrim warmup (rowsOf b.close))

/-- The rows returned by `compute_signals` (`[]` if it raised). -/
def compute_signalsD (b : BarsFrame) (warmup : ℕ) : List SigRow :=
  match compute_signals b warmup with
  | Except.ok rows => rows
  | Except.error _ => []

/-!
### Metrics (`compute_metrics` / `compute_metrics_legacy`)

Max drawdown is pure field arithmetic and is modelled over ℚ; CAGR takes a
real power and is modelled over ℝ with `Real.rpow`.
-/

/-- `eq.cummax()`: the running maximum of the equity series. -/
def cummaxAux (m : ℚ) : List ℚ → List ℚ
  | [] => []
  | x :: xs => max m x :: cummaxAux (max m x) xs

/-- `eq.cummax()` (empty on an empty series). -/
def cummax : List ℚ → List ℚ
  | [] => []
  | x :: xs => x :: cummaxAux x xs

/-- `series.min()` of a pandas series, used on the nonempty drawdown series
(`0` as a placeholder on the empty list, where pandas yields `NaN`). -/
def seriesMin : List ℚ → ℚ
  | [] => 0
  | x :: xs => xs.foldl min x

/-- `compute_metrics_legacy`: `dd = (eq / cummax - 1)`; `maxdd = dd.min()`. -/
def maxDrawdown_legacy (eq : List ℚ) : ℚ :=
  seriesMin (List.zipWith (fun e m => e / m - 1) eq (cummax eq))

/-- `compute_metrics` (extended path): computed only when `len(eq) > 1`
(else `0.0`); `drawdown = (eq / cummax - 1) * 100`; `max_drawdown =
drawdown.min()`. -/
def maxDrawdown_ext (eq : List ℚ) : ℚ :=
  if 1 < eq.length then
    seriesMin (List.zipWith (fun e m => (e / m - 1) * 100) eq (cummax eq))
  else 0

/-- `compute_metrics_legacy`:
`cagr = (eq.iloc[-1] / eq.iloc[0]) ** (freq / len(eq)) - 1 if len(eq) > 1
else 0.0`. -/
noncomputable def cagr_legacy (freq : ℕ) (eq : List ℝ) : ℝ :=
  if 1 < eq.length then
    (eq.getLastD 0 / eq.headD 0) ^ ((freq : ℝ) / (eq.length : ℝ)) - 1
  else 0

open Classical in
/-- `compute_metrics` (extended path): CAGR guarded by
`periods > 1 and equity_values[0] > 0`, computed as
`((eq[-1] / eq[0]) ** (1 / years) - 1) * 100` with `years = periods / freq`
(and `0.0` when `years ≤ 0` or a guard fails). -/
noncomputable def cagr_ext (freq : ℕ) (eq : List ℝ) : ℝ :=
  if 1 < eq.length ∧ 0 < eq.headD 0 then
    if 0 < (eq.length : ℝ) / (freq : ℝ) then
      ((eq.getLastD 0 / eq.headD 0) ^ ((1 : ℝ) / ((eq.length : ℝ) / (freq : ℝ))) - 1) * 100
    else 0
  else 0

/-!
### Win rate (`compute_metrics`, trade-aware path)

The pairing walker reads only each trade's `date`, `action` and `price`
fields; trades are sorted by date (Python's stable `sorted`) and paired
BUY→SELL with an open/closed flag; a pair is a win when the SELL price
exceeds the recorded BUY price.
-/

/-- The fields of a trade the win-rate pairing reads. -/
def tradeKeys (ts : List Trade) : List (ℕ × Action × ℚ) :=
  ts.map (fun tr => (tr.date, tr.action, tr.price))

/-- Stable insertion into a date-sorted key list. -/
def insertByDate (x : ℕ × Action × ℚ) : List (ℕ × Action × ℚ) → List (ℕ × Action × ℚ)
  | [] => [x]
  | y :: ys => if x.1 < y.1 then x :: y :: ys else y :: insertByDate x ys

/-- `sorted(trades, key=lambda x: x.get('date', ''))`. -/
def sortByDate : List (ℕ × Action × ℚ) → List (ℕ × Action × ℚ)
  | [] => []
  | x :: xs => insertByDate x (sortByDate xs)

/-- The pairing loop: `position`/`buy_price` state machine returning
`(winning_trades, total_trade_pairs)`. -/
def winLoop : List (ℕ × Action × ℚ) → ℕ → ℚ → ℕ → ℕ → ℕ × ℕ
  | [], _, _, w, tot => (w, tot)
  | k :: rest, position, buyPrice, w, tot =>
    if k.2.1 = Action.BUY ∧ position = 0 then
      winLoop rest 1 k.2.2 w tot
    else if k.2.1 = Action.SELL ∧ position = 1 then
      winLoop rest 0 buyPrice (if buyPrice < k.2.2 then w + 1 else w) (tot + 1)
    else winLoop rest position buyPrice w tot

/-- `win_rate = winning_trades / total_trade_pairs * 100` (`0` with no
round-trips). -/
def win_rate (ts : List Trade) : ℚ :=
  let r := winLoop (sortByDate (tradeKeys ts)) 0 0 0 0
  if r.2 = 0 then 0 else (r.1 : ℚ) / (r.2 : ℚ) * 100

/-- The 5-bar series of the spec's concrete scenario B, opens
`[100,101,102,103,104]` (closes set to the same values). -/
def barsB : List Bar :=
  [⟨100, 100⟩, ⟨101, 101⟩, ⟨102, 102⟩, ⟨103, 103⟩, ⟨104, 104⟩]

/-- The signal series of the spec's concrete scenario B. -/
def sigsB : List Action :=
  [Action.HOLD, Action.BUY, Action.HOLD, Action.SELL, Action.HOLD]

/-- A two-bar series (opens 100 then 50) used to exercise a single BUY fill. -/
def barsW : List Bar := [⟨100, 100⟩, ⟨50, 50⟩]

/-- A two-bar constant-price series. -/
def bars2 : List Bar := [⟨100, 100⟩, ⟨100, 100⟩]

/-- A single-bar series. -/
def bars1 : List Bar := [⟨100, 100⟩]

/-- A five-bar constant-price series. -/
def bars5 : List Bar := [⟨100, 100⟩, ⟨100, 100⟩, ⟨100, 100⟩, ⟨100, 100⟩, ⟨100, 100⟩]

/-- Two back-to-back round trips (each signal acted on one bar later). -/
def sigsRT : List Action :=
  [Action.BUY, Action.SELL, Action.BUY, Action.SELL, Action.HOLD]

/-- A four-row frame (all required columns present) whose close prices jump
at the third bar, firing the MACD cross-up event on the final row. -/
def frameJump : BarsFrame :=
  { close := [100, 100, 110, 100], hasClose := true, hasOpen := true,
    hasDailyReturn := true, hasVolatility := true }

/-- An empty frame with all required columns present. -/
def frameEmpty : BarsFrame :=
  { close := [], hasClose := true, hasOpen := true,
    hasDailyReturn := true, hasVolatility := true }

/-- A three-row frame with all required columns present. -/
def frame3 : BarsFrame :=
  { close := [1, 2, 3], hasClose := true, hasOpen := true,
    hasDailyReturn := true, hasVolatility := true }

/-- The alternation partner of an action (`BUY ↔ SELL`). -/
def flipA : Action → Action
  | Action.BUY => Action.SELL
  | _ => Action.BUY

/-- `altOk acts e` holds when `acts` is the strict alternation
`[e, flipA e, e, …]`; `altOk acts Action.BUY` states that a trade-action
list is `BUY, SELL, BUY, SELL, …`. -/
def altOk : List Action → Action → Bool
  | [], _ => true
  | a :: rest, e => a == e && altOk rest (flipA e)

end StockAnalysis

namespace StockAnalysis

/-! ### Helper lemmas: evaluating the engine one loop iteration at a time -/

lemma stateAt_zero (bars : List Bar) (sigs : List Action) (cap f s : ℚ) :
    stateAt bars sigs cap f s 0 =
      { pos := Pos.flat, cash := cap, shares := 0, trades := [], equity := [] } := rfl

lemma stateAt_succ_lt (bars : List Bar) (sigs : List Action) (cap f s : ℚ) (t : ℕ)
    (ht : t + 1 < bars.length) :
    stateAt bars sigs cap f s (t + 1) =
      step f s (t + 1) (bars.getD (t + 1) dBar) (sigAt sigs t)
        (stateAt bars sigs cap f s t) := by
  simp [stateAt, ht]

lemma stateAt_succ_ge (bars : List Bar) (sigs : List Action) (cap f s : ℚ) (t : ℕ)
    (ht : ¬(t + 1 < bars.length)) :
    stateAt bars sigs cap f s (t + 1) = stateAt bars sigs cap f s t := by
  simp [stateAt, ht]

lemma stateAt_eval (bars : List Bar) (sigs : List Action) (cap f s : ℚ) (t u : ℕ)
    (st : EngState) (hu : u = t + 1) (hlt : u < bars.length)
    (hst : stateAt bars sigs cap f s t = st) :
    stateAt bars sigs cap f s u =
      step f s u (bars.getD u dBar) (sigAt sigs t) st := by
  subst hu; rw [← hst]; exact stateAt_succ_lt bars sigs cap f s t hlt

lemma step_buy (f s : ℚ) (i : ℕ) (b : Bar) (st : EngState) (h : st.pos = Pos.flat) :
    step f s i b Action.BUY st =
      { pos := Pos.long, cash := 0,
        shares := st.cash / (b.openPx + b.openPx * (f + s) / 10000),
        trades := st.trades ++ [{ date := i, action := Action.BUY, price := b.openPx, shares := st.cash / (b.openPx + b.openPx * (f + s) / 10000) }],
        equity := st.equity ++ [{ date := i, equity := st.cash / (b.openPx + b.openPx * (f + s) / 10000) * b.closePx }] } := by
  simp [step, h]

lemma step_sell (f s : ℚ) (i : ℕ) (b : Bar) (st : EngState) (h : st.pos = Pos.long) :
    step f s i b Action.SELL st =
      { pos := Pos.flat,
        cash := st.shares * (b.openPx - b.openPx * (f + s) / 10000), shares := 0,
        trades := st.trades ++ [{ date := i, action := Action.SELL, price := b.openPx, shares := st.shares }],
        equity := st.equity ++ [{ date := i, equity := st.shares * (b.openPx - b.openPx * (f + s) / 10000) }] } := by
  simp [step, h]

lemma step_hold (f s : ℚ) (i : ℕ) (b : Bar) (st : EngState) :
    step f s i b Action.HOLD st =
      { st with equity := st.equity ++ [{ date := i, equity := st.cash + st.shares * b.closePx }] } := by
  simp [step]

lemma step_buy_long (f s : ℚ) (i : ℕ) (b : Bar) (st : EngState) (h : st.pos = Pos.long) :
    step f s i b Action.BUY st =
      { st with equity := st.equity ++ [{ date := i, equity := st.cash + st.shares * b.closePx }] } := by
  simp [step, h]

lemma step_sell_flat (f s : ℚ) (i : ℕ) (b : Bar) (st : EngState) (h : st.pos = Pos.flat) :
    step f s i b Action.SELL st =
      { st with equity := st.equity ++ [{ date := i, equity := st.cash + st.shares * b.closePx }] } := by
  simp [step, h]

/-- The engine state after processing all of scenario B. -/
lemma stateB_4 : stateAt barsB sigsB 10000 0 0 4 =
    { pos := Pos.flat, cash := 520000 / 51, shares := 0,
      trades := [{ date := 2, action := Action.BUY, price := 102, shares := 5000 / 51 }, { date := 4, action := Action.SELL, price := 104, shares := 5000 / 51 }],
      equity := [{ date := 1, equity := 10000 }, { date := 2, equity := 10000 }, { date := 3, equity := 515000 / 51 }, { date := 4, equity := 520000 / 51 }] } := by
  have h1 : stateAt barsB sigsB 10000 0 0 1 =
      { pos := Pos.flat, cash := 10000, shares := 0, trades := [],
        equity := [{ date := 1, equity := 10000 }] } := by
    rw [stateAt_eval barsB sigsB 10000 0 0 0 1 _ rfl (by norm_num [barsB]) (stateAt_zero _ _ _ _ _)]
    rw [show sigAt sigsB 0 = Action.HOLD from rfl, step_hold]
    norm_num [barsB, dBar]
  have h2 : stateAt barsB sigsB 10000 0 0 2 =
      { pos := Pos.long, cash := 0, shares := 5000 / 51,
        trades := [{ date := 2, action := Action.BUY, price := 102, shares := 5000 / 51 }],
        equity := [{ date := 1, equity := 10000 }, { date := 2, equity := 10000 }] } := by
    rw [stateAt_eval barsB sigsB 10000 0 0 1 2 _ rfl (by norm_num [barsB]) h1]
    rw [show sigAt sigsB 1 = Action.BUY from rfl, step_buy _ _ _ _ _ rfl]
    norm_num [barsB, dBar]
  have h3 : stateAt barsB sigsB 10000 0 0 3 =
      { pos := Pos.long, cash := 0, shares := 5000 / 51,
        trades := [{ date := 2, action := Action.BUY, price := 102, shares := 5000 / 51 }],
        equity := [{ date := 1, equity := 10000 }, { date := 2, equity := 10000 }, { date := 3, equity := 515000 / 51 }] } := by
    rw [stateAt_eval barsB sigsB 10000 0 0 2 3 _ rfl (by norm_num [barsB]) h2]
    rw [show sigAt sigsB 2 = Action.HOLD from rfl, step_hold]
    norm_num [barsB, dBar]
  rw [stateAt_eval barsB sigsB 10000 0 0 3 4 _ rfl (by norm_num [barsB]) h3]
  rw [show sigAt sigsB 3 = Action.SELL from rfl, step_sell _ _ _ _ _ rfl]
  norm_num [barsB, dBar]

/-- `BacktestEngine.run` on scenario B, fully evaluated. -/
lemma runB : run barsB sigsB 10000 0 0 = Except.ok
    ([{ date := 2, action := Action.BUY, price := 102, shares := 5000 / 51 }, { date := 4, action := Action.SELL, price := 104, shares := 5000 / 51 }],
     [{ date := 1, equity := 10000 }, { date := 2, equity := 10000 }, { date := 3, equity := 515000 / 51 }, { date := 4, equity := 520000 / 51 }]) := by
  rw [run, if_neg (by norm_num [barsB, sigsB])]
  rw [show barsB.length - 1 = 4 from by norm_num [barsB], stateB_4]
  norm_num

/-- C1: on a BUY signal recorded at bar `t` while FLAT, the fill happens at
bar `t+1`: all cash converts to shares at the effective price
`open[t+1] * (1 + (fee_bps + slippage_bps)/10000)`, cash becomes `0`, the
state becomes LONG, and one BUY `Trade` is appended; on a SELL signal
recorded at bar `t` while LONG, all shares convert to cash at
`open[t+1] * (1 - (fee_bps + slippage_bps)/10000)`, the state becomes FLAT,
and one SELL `Trade` is appended. -/
theorem C1_fill_rule (bars : List Bar) (sigs : List Action) (cap f s : ℚ) (t : ℕ)
    (ht : t + 1 < bars.length) :
    (sigAt sigs t = Action.BUY ∧ (stateAt bars sigs cap f s t).pos = Pos.flat →
      (stateAt bars sigs cap f s (t + 1)).pos = Pos.long ∧
      (stateAt bars sigs cap f s (t + 1)).cash = 0 ∧
      (stateAt bars sigs cap f s (t + 1)).shares =
        (stateAt bars sigs cap f s t).cash /
          ((bars.getD (t + 1) dBar).openPx * (1 + (f + s) / 10000)) ∧
      (stateAt bars sigs cap f s (t + 1)).trades =
        (stateAt bars sigs cap f s t).trades ++
          [{ date := t + 1, action := Action.BUY,
             price := (bars.getD (t + 1) dBar).openPx,
             shares := (stateAt bars sigs cap f s t).cash /
               ((bars.getD (t + 1) dBar).openPx * (1 + (f + s) / 10000)) }]) ∧
    (sigAt sigs t = Action.SELL ∧ (stateAt bars sigs cap f s t).pos = Pos.long →
      (stateAt bars sigs cap f s (t + 1)).pos = Pos.flat ∧
      (stateAt bars sigs cap f s (t + 1)).shares = 0 ∧
      (stateAt bars sigs cap f s (t + 1)).cash =
        (stateAt bars sigs cap f s t).shares *
          ((bars.getD (t + 1) dBar).openPx * (1 - (f + s) / 10000)) ∧
      (stateAt bars sigs cap f s (t + 1)).trades =
        (stateAt bars sigs cap f s t).trades ++
          [{ date := t + 1, action := Action.SELL,
             price := (bars.getD (t + 1) dBar).openPx,
             shares := (stateAt bars sigs cap f s t).shares }]) := by
  have hden : (bars.getD (t + 1) dBar).openPx +
      (bars.getD (t + 1) dBar).openPx * (f + s) / 10000
      = (bars.getD (t + 1) dBar).openPx * (1 + (f + s) / 10000) := by ring
  have hden2 : (bars.getD (t + 1) dBar).openPx -
      (bars.getD (t + 1) dBar).openPx * (f + s) / 10000
      = (bars.getD (t + 1) dBar).openPx * (1 - (f + s) / 10000) := by ring
  constructor
  · rintro ⟨ha, hp⟩
    rw [stateAt_succ_lt bars sigs cap f s t ht, ha,
      step_buy f s (t + 1) (bars.getD (t + 1) dBar) (stateAt bars sigs cap f s t) hp]
    refine ⟨rfl, rfl, ?_, ?_⟩
    · rw [hden]
    · rw [hden]
  · rintro ⟨ha, hp⟩
    rw [stateAt_succ_lt bars sigs cap f s t ht, ha,
      step_sell f s (t + 1) (bars.getD (t + 1) dBar) (stateAt bars sigs cap f s t) hp]
    refine ⟨rfl, rfl, ?_, rfl⟩
    rw [hden2]

/-- Witness for C1 at a concrete input: two bars, a BUY recorded at bar 0,
300 cash, zero costs: the fill at bar 1's open 50 yields 6 shares. -/
theorem C1_fill_rule_witness :
    (stateAt barsW [Action.BUY] 300 0 0 1).pos = Pos.long ∧
    (stateAt barsW [Action.BUY] 300 0 0 1).cash = 0 ∧
    (stateAt barsW [Action.BUY] 300 0 0 1).shares =
      (stateAt barsW [Action.BUY] 300 0 0 0).cash /
        ((barsW.getD 1 dBar).openPx * (1 + ((0 : ℚ) + 0) / 10000)) ∧
    (stateAt barsW [Action.BUY] 300 0 0 1).trades =
      (stateAt barsW [Action.BUY] 300 0 0 0).trades ++
        [{ date := 1, action := Action.BUY, price := (barsW.getD 1 dBar).openPx,
           shares := (stateAt barsW [Action.BUY] 300 0 0 0).cash /
             ((barsW.getD 1 dBar).openPx * (1 + ((0 : ℚ) + 0) / 10000)) }] :=
  (C1_fill_rule barsW [Action.BUY] 300 0 0 0 (by decide)).1 ⟨by decide, by decide⟩

/-- C2 is false on the code: with signals `[HOLD, BUY, HOLD, SELL, HOLD]`
over opens `[100,101,102,103,104]`, zero costs and 10000 capital, the engine
acts one bar after each signal, so the fills are at opens 102 and 104 (not
101 and 103) and the final equity is `520000/51 ≈ 10196.08`, not
`10198.02`. -/
theorem C2_counterexample :
    (runTradesD barsB sigsB 10000 0 0).map Trade.price = [102, 104] ∧
    lastEquityD barsB sigsB 10000 0 0 = 520000 / 51 ∧
    ¬((520000 : ℚ) / 51 = 1019802 / 100) := by
  refine ⟨?_, ?_, by norm_num⟩
  · rw [runTradesD, runB]
    norm_num
  · rw [lastEquityD, runB]
    norm_num [List.getLastD]

/-- C2 (amended): on scenario B the BUY recorded at bar 1 fills at bar 2's
open 102 giving `10000/102 = 5000/51` shares, the SELL recorded at bar 3
fills at bar 4's open 104, and the final equity is `520000/51 ≈ 10196.08`. -/
theorem C2_amended :
    runTradesD barsB sigsB 10000 0 0 =
      [{ date := 2, action := Action.BUY, price := 102, shares := 5000 / 51 },
       { date := 4, action := Action.SELL, price := 104, shares := 5000 / 51 }] ∧
    lastEquityD barsB sigsB 10000 0 0 = 520000 / 51 := by
  refine ⟨?_, ?_⟩
  · rw [runTradesD, runB]
  · rw [lastEquityD, runB]
    norm_num [List.getLastD]

lemma step_equity_length (f s : ℚ) (i : ℕ) (b : Bar) (a : Action) (st : EngState) :
    (step f s i b a st).equity.length = st.equity.length + 1 := by
  simp only [step]
  split
  · simp
  · split <;> simp

lemma stateAt_equity_length (bars : List Bar) (sigs : List Action) (cap f s : ℚ) :
    ∀ t, (stateAt bars sigs cap f s t).equity.length = min t (bars.length - 1) := by
  intro t
  induction t with
  | zero => simp [stateAt_zero]
  | succ t ih =>
    by_cases h : t + 1 < bars.length
    · rw [stateAt_succ_lt bars sigs cap f s t h, step_equity_length, ih]
      omega
    · rw [stateAt_succ_ge bars sigs cap f s t h, ih]
      omega

lemma run_ok_of (bars : List Bar) (sigs : List Action) (cap f s : ℚ)
    (h2 : 2 ≤ bars.length) (hs : sigs ≠ []) :
    run bars sigs cap f s = Except.ok
      ((stateAt bars sigs cap f s (bars.length - 1)).trades,
       (stateAt bars sigs cap f s (bars.length - 1)).equity) := by
  have hb : bars ≠ [] := by
    intro h; rw [h] at h2; simp at h2
  rw [run, if_neg (by simp [hb, hs])]
  rw [if_neg ?_]
  have hlen := stateAt_equity_length bars sigs cap f s (bars.length - 1)
  intro hemp
  rw [List.isEmpty_iff] at hemp
  rw [hemp] at hlen
  simp at hlen
  omega

/-- C5 is false on the code: a non-empty single-bar series with a non-empty
signal series still raises — the loop body never runs, the equity list stays
empty, and `pd.DataFrame([]).set_index("date")` raises a `KeyError` (which is
not a `ValueError`-class error). -/
theorem C5_counterexample :
    run bars1 [Action.HOLD] 10000 10 10 = Except.error (RunError.keyError "date") ∧
    bars1 ≠ [] ∧ ([Action.HOLD] : List Action) ≠ [] := by
  refine ⟨?_, by simp [bars1], by simp⟩
  rw [run, if_neg (by norm_num [bars1])]
  rw [show bars1.length - 1 = 0 from by norm_num [bars1], stateAt_zero]
  simp

/-- C5 (amended): `run` raises the `ValueError`-class error exactly when the
bar series or the signal series is empty, and for a non-empty signal series
and a bar series with at least two bars it always returns Trade/Equity
outputs; a non-empty single-bar series instead raises a `KeyError`. -/
theorem C5_error_iff (bars : List Bar) (sigs : List Action) (cap f s : ℚ) :
    ((∃ m, run bars sigs cap f s = Except.error (RunError.valueError m)) ↔
      bars = [] ∨ sigs = []) ∧
    (2 ≤ bars.length → sigs ≠ [] → ∃ r, run bars sigs cap f s = Except.ok r) := by
  constructor
  · constructor
    · rintro ⟨m, hm⟩
      by_contra hne
      push_neg at hne
      rw [run, if_neg (by simp [hne.1, hne.2])] at hm
      simp only [] at hm
      split at hm <;> simp at hm
    · intro h
      refine ⟨"데이터/시그널이 비어있습니다", ?_⟩
      rw [run, if_pos (by rcases h with h | h <;> simp [h])]
  · intro h2 hs
    exact ⟨_, run_ok_of bars sigs cap f s h2 hs⟩

/-- Witness for C5 (amended) at a concrete input: two constant-price bars
and one HOLD signal produce a successful run. -/
theorem C5_error_iff_witness :
    ∃ r, run bars2 [Action.HOLD] 100 10 10 = Except.ok r :=
  (C5_error_iff bars2 [Action.HOLD] 100 10 10).2 (by norm_num [bars2]) (by simp)

/-- C6 is false on the code as universally stated: with zero initial
capital, a BUY fill converts zero cash into zero shares but still moves the
engine to LONG, so at the bar-1 equity point the state is LONG while
`shares = 0` (the claim requires `shares > 0` exactly on LONG and
`shares = 0` exactly on FLAT). -/
theorem C6_counterexample :
    (stateAt bars2 [Action.BUY, Action.HOLD] 0 10 5 1).pos = Pos.long ∧
    ¬(0 < (stateAt bars2 [Action.BUY, Action.HOLD] 0 10 5 1).shares) := by
  have h1 : stateAt bars2 [Action.BUY, Action.HOLD] 0 10 5 1 =
      { pos := Pos.long, cash := 0, shares := 0,
        trades := [{ date := 1, action := Action.BUY, price := 100, shares := 0 }],
        equity := [{ date := 1, equity := 0 }] } := by
    rw [stateAt_eval bars2 [Action.BUY, Action.HOLD] 0 10 5 0 1 _ rfl
      (by norm_num [bars2]) (stateAt_zero _ _ _ _ _)]
    rw [show sigAt [Action.BUY, Action.HOLD] 0 = Action.BUY from rfl,
      step_buy _ _ _ _ _ rfl]
    norm_num [bars2, dBar]
  rw [h1]
  norm_num

lemma altOk_snoc (as : List Action) : ∀ (e a : Action), flipA (flipA e) = e →
    altOk (as ++ [a]) e =
      (altOk as e && (a == (if as.length % 2 = 0 then e else flipA e))) := by
  induction as with
  | nil => intro e a he; simp [altOk]
  | cons x xs ih =>
    intro e a he
    have he2 : flipA (flipA (flipA e)) = flipA e := by rw [he]
    rcases Nat.mod_two_eq_zero_or_one xs.length with h | h
    · simp [altOk, ih (flipA e) a he2, h, he, List.length_cons, Nat.succ_mod_two_eq_zero_iff, Bool.and_assoc]
    · simp [altOk, ih (flipA e) a he2, h, he, List.length_cons, Nat.succ_mod_two_eq_zero_iff, Bool.and_assoc]

/-- The running invariant of the engine: with positive capital, positive
opens, and total costs below 100%, FLAT states hold positive cash and zero
shares, LONG states hold zero cash and positive shares, the recorded trade
actions alternate starting at BUY, and the parity of the trade count tracks
the position. -/
lemma stateAt_inv (bars : List Bar) (sigs : List Action) (cap f s : ℚ)
    (hcap : 0 < cap) (hopen : ∀ b ∈ bars, 0 < b.openPx)
    (hf : 0 ≤ f) (hs : 0 ≤ s) (hfs : f + s < 10000) :
    ∀ t,
      (((stateAt bars sigs cap f s t).pos = Pos.flat ∧
        0 < (stateAt bars sigs cap f s t).cash ∧
        (stateAt bars sigs cap f s t).shares = 0) ∨
       ((stateAt bars sigs cap f s t).pos = Pos.long ∧
        (stateAt bars sigs cap f s t).cash = 0 ∧
        0 < (stateAt bars sigs cap f s t).shares)) ∧
      altOk ((stateAt bars sigs cap f s t).trades.map Trade.action) Action.BUY = true ∧
      ((stateAt bars sigs cap f s t).pos = Pos.long ↔
        (stateAt bars sigs cap f s t).trades.length % 2 = 1) := by
  intro t
  induction t with
  | zero => simp [stateAt_zero, altOk, hcap]
  | succ t ih =>
    obtain ⟨hstate, halt, hparity⟩ := ih
    by_cases hlt : t + 1 < bars.length
    · have hbmem : bars.getD (t + 1) dBar ∈ bars := by
        rw [List.getD_eq_getElem bars dBar hlt]
        exact List.getElem_mem hlt
      have ho : 0 < (bars.getD (t + 1) dBar).openPx := hopen _ hbmem
      have hkpos : 0 < (bars.getD (t + 1) dBar).openPx +
          (bars.getD (t + 1) dBar).openPx * (f + s) / 10000 := by
        have : 0 ≤ (bars.getD (t + 1) dBar).openPx * (f + s) / 10000 := by positivity
        linarith
      have hkneg : 0 < (bars.getD (t + 1) dBar).openPx -
          (bars.getD (t + 1) dBar).openPx * (f + s) / 10000 := by
        have h1 : (bars.getD (t + 1) dBar).openPx * (f + s) / 10000 <
            (bars.getD (t + 1) dBar).openPx := by
          rw [div_lt_iff₀ (by norm_num : (0:ℚ) < 10000)]
          exact mul_lt_mul_of_pos_left hfs ho
        linarith
      rw [stateAt_succ_lt bars sigs cap f s t hlt]
      rcases hstate with ⟨hp, hc, hsh⟩ | ⟨hp, hc, hsh⟩
      · -- FLAT before the bar
        have hlen0 : (stateAt bars sigs cap f s t).trades.length % 2 = 0 := by
          rcases Nat.mod_two_eq_zero_or_one (stateAt bars sigs cap f s t).trades.length with h | h
          · exact h
          · exfalso
            have hcon := hparity.2 h
            rw [hp] at hcon
            exact Pos.noConfusion hcon
        cases hA : sigAt sigs t with
        | BUY =>
          rw [step_buy f s (t + 1) (bars.getD (t + 1) dBar) _ hp]
          refine ⟨Or.inr ⟨rfl, rfl, div_pos hc hkpos⟩, ?_, ?_⟩
          · simp only [List.map_append, List.map_cons, List.map_nil]
            rw [altOk_snoc _ Action.BUY Action.BUY rfl]
            simp [halt, List.length_map, hlen0]
          · have h1 : ((stateAt bars sigs cap f s t).trades.length + 1) % 2 = 1 := by omega
            simp [h1]
        | SELL =>
          rw [step_sell_flat f s (t + 1) (bars.getD (t + 1) dBar) _ hp]
          exact ⟨Or.inl ⟨hp, hc, hsh⟩, halt, hparity⟩
        | HOLD =>
          rw [step_hold]
          exact ⟨Or.inl ⟨hp, hc, hsh⟩, halt, hparity⟩
      · -- LONG before the bar
        have hlen1 : (stateAt bars sigs cap f s t).trades.length % 2 = 1 := hparity.1 hp
        cases hA : sigAt sigs t with
        | BUY =>
          rw [step_buy_long f s (t + 1) (bars.getD (t + 1) dBar) _ hp]
          exact ⟨Or.inr ⟨hp, hc, hsh⟩, halt, hparity⟩
        | SELL =>
          rw [step_sell f s (t + 1) (bars.getD (t + 1) dBar) _ hp]
          refine ⟨Or.inl ⟨rfl, mul_pos hsh hkneg, rfl⟩, ?_, ?_⟩
          · simp only [List.map_append, List.map_cons, List.map_nil]
            rw [altOk_snoc _ Action.BUY Action.SELL rfl]
            simp [halt, List.length_map, hlen1, flipA]
          · have h1 : ¬(((stateAt bars sigs cap f s t).trades.length + 1) % 2 = 1) := by omega
            simp [h1]
        | HOLD =>
          rw [step_hold]
          exact ⟨Or.inr ⟨hp, hc, hsh⟩, halt, hparity⟩
    · rw [stateAt_succ_ge bars sigs cap f s t hlt]
      exact ⟨hstate, halt, hparity⟩

/-- C6 (amended): under positive initial capital, positive open prices and
total costs below 100%, at every step of the simulation `shares > 0` holds
exactly when the engine is LONG and `shares = 0` exactly when it is FLAT; a
BUY while LONG, a SELL while FLAT, and a HOLD change none of position,
cash, shares, or the trade log; and the recorded trade actions strictly
alternate `BUY, SELL, BUY, …` starting with BUY. -/
theorem C6_amended (bars : List Bar) (sigs : List Action) (cap f s : ℚ)
    (hcap : 0 < cap) (hopen : ∀ b ∈ bars, 0 < b.openPx)
    (hf : 0 ≤ f) (hs : 0 ≤ s) (hfs : f + s < 10000) (t : ℕ) :
    ((stateAt bars sigs cap f s t).pos = Pos.long ↔
      0 < (stateAt bars sigs cap f s t).shares) ∧
    ((stateAt bars sigs cap f s t).pos = Pos.flat ↔
      (stateAt bars sigs cap f s t).shares = 0) ∧
    (t + 1 < bars.length →
      ((sigAt sigs t = Action.BUY ∧ (stateAt bars sigs cap f s t).pos = Pos.long) ∨
       (sigAt sigs t = Action.SELL ∧ (stateAt bars sigs cap f s t).pos = Pos.flat) ∨
       sigAt sigs t = Action.HOLD) →
      (stateAt bars sigs cap f s (t + 1)).pos = (stateAt bars sigs cap f s t).pos ∧
      (stateAt bars sigs cap f s (t + 1)).cash = (stateAt bars sigs cap f s t).cash ∧
      (stateAt bars sigs cap f s (t + 1)).shares = (stateAt bars sigs cap f s t).shares ∧
      (stateAt bars sigs cap f s (t + 1)).trades = (stateAt bars sigs cap f s t).trades) ∧
    altOk ((stateAt bars sigs cap f s t).trades.map Trade.action) Action.BUY = true := by
  obtain ⟨hstate, halt, hparity⟩ := stateAt_inv bars sigs cap f s hcap hopen hf hs hfs t
  refine ⟨?_, ?_, ?_, halt⟩
  · rcases hstate with ⟨hp, hc, hsh⟩ | ⟨hp, hc, hsh⟩
    · simp [hp, hsh]
    · simp [hp, hsh]
  · rcases hstate with ⟨hp, hc, hsh⟩ | ⟨hp, hc, hsh⟩
    · simp [hp, hsh]
    · simp [hp, ne_of_gt hsh]
  · rintro hlt (⟨hA, hp⟩ | ⟨hA, hp⟩ | hA)
    · rw [stateAt_succ_lt bars sigs cap f s t hlt, hA,
        step_buy_long f s (t + 1) (bars.getD (t + 1) dBar) _ hp]
      exact ⟨rfl, rfl, rfl, rfl⟩
    · rw [stateAt_succ_lt bars sigs cap f s t hlt, hA,
        step_sell_flat f s (t + 1) (bars.getD (t + 1) dBar) _ hp]
      exact ⟨rfl, rfl, rfl, rfl⟩
    · rw [stateAt_succ_lt bars sigs cap f s t hlt, hA, step_hold]
      exact ⟨rfl, rfl, rfl, rfl⟩

/-- Witness for C6 (amended) at a concrete input: two bars, a BUY at bar 0,
capital 100, fees 10 bps and slippage 5 bps, checked after bar 1. -/
theorem C6_amended_witness :
    ((stateAt bars2 [Action.BUY, Action.HOLD] 100 10 5 1).pos = Pos.long ↔
      0 < (stateAt bars2 [Action.BUY, Action.HOLD] 100 10 5 1).shares) ∧
    ((stateAt bars2 [Action.BUY, Action.HOLD] 100 10 5 1).pos = Pos.flat ↔
      (stateAt bars2 [Action.BUY, Action.HOLD] 100 10 5 1).shares = 0) ∧
    (1 + 1 < bars2.length →
      ((sigAt [Action.BUY, Action.HOLD] 1 = Action.BUY ∧
        (stateAt bars2 [Action.BUY, Action.HOLD] 100 10 5 1).pos = Pos.long) ∨
       (sigAt [Action.BUY, Action.HOLD] 1 = Action.SELL ∧
        (stateAt bars2 [Action.BUY, Action.HOLD] 100 10 5 1).pos = Pos.flat) ∨
       sigAt [Action.BUY, Action.HOLD] 1 = Action.HOLD) →
      (stateAt bars2 [Action.BUY, Action.HOLD] 100 10 5 (1 + 1)).pos =
        (stateAt bars2 [Action.BUY, Action.HOLD] 100 10 5 1).pos ∧
      (stateAt bars2 [Action.BUY, Action.HOLD] 100 10 5 (1 + 1)).cash =
        (stateAt bars2 [Action.BUY, Action.HOLD] 100 10 5 1).cash ∧
      (stateAt bars2 [Action.BUY, Action.HOLD] 100 10 5 (1 + 1)).shares =
        (stateAt bars2 [Action.BUY, Action.HOLD] 100 10 5 1).shares ∧
      (stateAt bars2 [Action.BUY, Action.HOLD] 100 10 5 (1 + 1)).trades =
        (stateAt bars2 [Action.BUY, Action.HOLD] 100 10 5 1).trades) ∧
    altOk ((stateAt bars2 [Action.BUY, Action.HOLD] 100 10 5 1).trades.map Trade.action)
      Action.BUY = true :=
  C6_amended bars2 [Action.BUY, Action.HOLD] 100 10 5 (by norm_num)
    (by norm_num [bars2]) (by norm_num) (by norm_num) (by norm_num) 1

end StockAnalysis

namespace StockAnalysis

lemma step_last_equity (f s : ℚ) (i : ℕ) (b : Bar) (a : Action) (st : EngState) :
    (step f s i b a st).equity = st.equity ++
      [{ date := i, equity := (step f s i b a st).cash + (step f s i b a st).shares * b.closePx }] := by
  simp only [step]
  split
  · simp
  · split <;> simp

lemma stateAt_last_equity (bars : List Bar) (sigs : List Action) (cap f s : ℚ) (t : ℕ)
    (h1 : 1 ≤ t) (hlt : t < bars.length) :
    (stateAt bars sigs cap f s t).equity.getLastD { date := 0, equity := 0 } =
      { date := t, equity := (stateAt bars sigs cap f s t).cash +
        (stateAt bars sigs cap f s t).shares * (bars.getD t dBar).closePx } := by
  obtain ⟨u, rfl⟩ : ∃ u, t = u + 1 := ⟨t - 1, by omega⟩
  rw [stateAt_succ_lt bars sigs cap f s u hlt]
  rw [step_last_equity, List.getLastD_concat]

/-- Componentwise comparison of two runs differing only in costs: the run
with the higher total cost has pointwise no more cash and no fewer...
(positions agree, both stay non-negative, higher cost never exceeds). -/
lemma stateAt_mono (bars : List Bar) (sigs : List Action) (cap : ℚ) (f1 s1 f2 s2 : ℚ)
    (hopen : ∀ b ∈ bars, 0 < b.openPx) (hcap : 0 ≤ cap)
    (hf1 : 0 ≤ f1) (hs1 : 0 ≤ s1) (hff : f1 ≤ f2) (hss : s1 ≤ s2)
    (hsum : f2 + s2 ≤ 10000) :
    ∀ t, (stateAt bars sigs cap f2 s2 t).pos = (stateAt bars sigs cap f1 s1 t).pos ∧
      0 ≤ (stateAt bars sigs cap f2 s2 t).cash ∧
      (stateAt bars sigs cap f2 s2 t).cash ≤ (stateAt bars sigs cap f1 s1 t).cash ∧
      0 ≤ (stateAt bars sigs cap f2 s2 t).shares ∧
      (stateAt bars sigs cap f2 s2 t).shares ≤ (stateAt bars sigs cap f1 s1 t).shares := by
  intro t
  induction t with
  | zero => simp [stateAt_zero, hcap]
  | succ t ih =>
    obtain ⟨hpos, hc0, hcc, hsh0, hshle⟩ := ih
    by_cases hlt : t + 1 < bars.length
    · have hbmem : bars.getD (t + 1) dBar ∈ bars := by
        rw [List.getD_eq_getElem bars dBar hlt]
        exact List.getElem_mem hlt
      have ho : 0 < (bars.getD (t + 1) dBar).openPx := hopen _ hbmem
      set b := bars.getD (t + 1) dBar with hb
      have hd1pos : 0 < b.openPx + b.openPx * (f1 + s1) / 10000 := by
        have : 0 ≤ b.openPx * (f1 + s1) / 10000 := by positivity
        linarith
      have hd2pos : 0 < b.openPx + b.openPx * (f2 + s2) / 10000 := by
        have h0 : 0 ≤ f2 := le_trans hf1 hff
        have h0s : 0 ≤ s2 := le_trans hs1 hss
        have : 0 ≤ b.openPx * (f2 + s2) / 10000 := by positivity
        linarith
      have hd12 : b.openPx + b.openPx * (f1 + s1) / 10000 ≤
          b.openPx + b.openPx * (f2 + s2) / 10000 := by
        have h2 : 0 ≤ b.openPx := le_of_lt ho
        gcongr
      have hm2 : 0 ≤ b.openPx - b.openPx * (f2 + s2) / 10000 := by
        have : b.openPx * (f2 + s2) / 10000 ≤ b.openPx := by
          rw [div_le_iff₀ (by norm_num : (0:ℚ) < 10000)]
          exact mul_le_mul_of_nonneg_left hsum (le_of_lt ho)
        linarith
      have hm12 : b.openPx - b.openPx * (f2 + s2) / 10000 ≤
          b.openPx - b.openPx * (f1 + s1) / 10000 := by
        have h2 : 0 ≤ b.openPx := le_of_lt ho
        gcongr
      rw [stateAt_succ_lt bars sigs cap f1 s1 t hlt,
        stateAt_succ_lt bars sigs cap f2 s2 t hlt, ← hb]
      cases hA : sigAt sigs t with
      | BUY =>
        cases hP : (stateAt bars sigs cap f1 s1 t).pos with
        | flat =>
          have hP2 : (stateAt bars sigs cap f2 s2 t).pos = Pos.flat := by rw [hpos, hP]
          rw [step_buy f1 s1 (t + 1) b _ hP, step_buy f2 s2 (t + 1) b _ hP2]
          refine ⟨rfl, le_refl 0, le_refl 0, ?_, ?_⟩
          · exact div_nonneg hc0 (le_of_lt hd2pos)
          · exact div_le_div₀ (le_trans hc0 hcc) hcc hd1pos hd12
        | long =>
          have hP2 : (stateAt bars sigs cap f2 s2 t).pos = Pos.long := by rw [hpos, hP]
          rw [step_buy_long f1 s1 (t + 1) b _ hP, step_buy_long f2 s2 (t + 1) b _ hP2]
          exact ⟨hpos, hc0, hcc, hsh0, hshle⟩
      | SELL =>
        cases hP : (stateAt bars sigs cap f1 s1 t).pos with
        | flat =>
          have hP2 : (stateAt bars sigs cap f2 s2 t).pos = Pos.flat := by rw [hpos, hP]
          rw [step_sell_flat f1 s1 (t + 1) b _ hP, step_sell_flat f2 s2 (t + 1) b _ hP2]
          exact ⟨hpos, hc0, hcc, hsh0, hshle⟩
        | long =>
          have hP2 : (stateAt bars sigs cap f2 s2 t).pos = Pos.long := by rw [hpos, hP]
          rw [step_sell f1 s1 (t + 1) b _ hP, step_sell f2 s2 (t + 1) b _ hP2]
          refine ⟨rfl, ?_, ?_, le_refl 0, le_refl 0⟩
          · exact mul_nonneg hsh0 hm2
          · exact mul_le_mul hshle hm12 hm2 (le_trans hsh0 hshle)
      | HOLD =>
        rw [step_hold, step_hold]
        exact ⟨hpos, hc0, hcc, hsh0, hshle⟩
    · rw [stateAt_succ_ge bars sigs cap f1 s1 t hlt,
        stateAt_succ_ge bars sigs cap f2 s2 t hlt]
      exact ⟨hpos, hc0, hcc, hsh0, hshle⟩

lemma lastEquityD_ok (bars : List Bar) (sigs : List Action) (cap f s : ℚ)
    (r : List Trade × List EquityPoint) (h : run bars sigs cap f s = Except.ok r) :
    lastEquityD bars sigs cap f s = (r.2.getLastD { date := 0, equity := 0 }).equity := by
  rw [lastEquityD, h]

lemma lastEquityD_error (bars : List Bar) (sigs : List Action) (cap f s : ℚ)
    (e : RunError) (h : run bars sigs cap f s = Except.error e) :
    lastEquityD bars sigs cap f s = 0 := by
  rw [lastEquityD, h]

lemma runTradesD_ok (bars : List Bar) (sigs : List Action) (cap f s : ℚ)
    (r : List Trade × List EquityPoint) (h : run bars sigs cap f s = Except.ok r) :
    runTradesD bars sigs cap f s = r.1 := by
  rw [runTradesD, h]

lemma run_one_bar (bars : List Bar) (sigs : List Action) (cap f s : ℚ)
    (hb : bars ≠ []) (hs : sigs ≠ []) (h1 : bars.length = 1) :
    run bars sigs cap f s = Except.error (RunError.keyError "date") := by
  rw [run, if_neg (by simp [hb, hs])]
  rw [show bars.length - 1 = 0 from by omega, stateAt_zero]
  simp

/-- C7 (amended): with positive open prices, non-negative closes, capital
and cost parameters, and total costs at most 100% (10000 bps), raising
`fee_bps` and/or `slippage_bps` while holding the bar and signal series
fixed never increases the final equity. -/
theorem C7_amended (bars : List Bar) (sigs : List Action) (cap f1 s1 f2 s2 : ℚ)
    (hopen : ∀ b ∈ bars, 0 < b.openPx) (hclose : ∀ b ∈ bars, 0 ≤ b.closePx)
    (hcap : 0 ≤ cap) (hf1 : 0 ≤ f1) (hs1 : 0 ≤ s1) (hff : f1 ≤ f2) (hss : s1 ≤ s2)
    (hsum : f2 + s2 ≤ 10000) :
    lastEquityD bars sigs cap f2 s2 ≤ lastEquityD bars sigs cap f1 s1 := by
  by_cases hbs : bars.isEmpty ∨ sigs.isEmpty
  · have h1 : run bars sigs cap f1 s1 = Except.error
        (RunError.valueError "데이터/시그널이 비어있습니다") := by rw [run, if_pos hbs]
    have h2 : run bars sigs cap f2 s2 = Except.error
        (RunError.valueError "데이터/시그널이 비어있습니다") := by rw [run, if_pos hbs]
    rw [lastEquityD_error bars sigs cap f1 s1 _ h1, lastEquityD_error bars sigs cap f2 s2 _ h2]
  · obtain ⟨hb1, hb2⟩ := not_or.mp hbs
    have hb' : bars ≠ [] := fun h => hb1 (by simp [h])
    have hs' : sigs ≠ [] := fun h => hb2 (by simp [h])
    by_cases hlen : 2 ≤ bars.length
    · rw [lastEquityD_ok bars sigs cap f1 s1 _ (run_ok_of bars sigs cap f1 s1 hlen hs'),
        lastEquityD_ok bars sigs cap f2 s2 _ (run_ok_of bars sigs cap f2 s2 hlen hs')]
      rw [stateAt_last_equity bars sigs cap f1 s1 (bars.length - 1) (by omega) (by omega),
        stateAt_last_equity bars sigs cap f2 s2 (bars.length - 1) (by omega) (by omega)]
      obtain ⟨hpos, hc0, hcc, hsh0, hshle⟩ :=
        stateAt_mono bars sigs cap f1 s1 f2 s2 hopen hcap hf1 hs1 hff hss hsum
          (bars.length - 1)
      have hbmem : bars.getD (bars.length - 1) dBar ∈ bars := by
        rw [List.getD_eq_getElem bars dBar (by omega)]
        exact List.getElem_mem (by omega)
      have hcl : 0 ≤ (bars.getD (bars.length - 1) dBar).closePx := hclose _ hbmem
      simpa using add_le_add hcc (mul_le_mul_of_nonneg_right hshle hcl)
    · have h1 : bars.length = 1 := by
        have := List.length_pos.mpr hb'
        omega
      rw [lastEquityD_error bars sigs cap f1 s1 _ (run_one_bar bars sigs cap f1 s1 hb' hs' h1),
        lastEquityD_error bars sigs cap f2 s2 _ (run_one_bar bars sigs cap f2 s2 hb' hs' h1)]

/-- Witness for C7 (amended): raising costs from (0, 0) to (10, 5) bps on
scenario B does not increase the final equity. -/
theorem C7_amended_witness :
    lastEquityD barsB sigsB 10000 10 5 ≤ lastEquityD barsB sigsB 10000 0 0 :=
  C7_amended barsB sigsB 10000 0 0 10 5 (by norm_num [barsB]) (by norm_num [barsB])
    (by norm_num) (by norm_num) (by norm_num) (by norm_num) (by norm_num) (by norm_num)

/-- The engine state after two round trips at 10000 bps fee (a 100% cost):
everything is consumed, final equity 0. -/
lemma stateRTa_4 : stateAt bars5 sigsRT 10000 10000 0 4 =
    { pos := Pos.flat, cash := 0, shares := 0,
      trades := [{ date := 1, action := Action.BUY, price := 100, shares := 50 }, { date := 2, action := Action.SELL, price := 100, shares := 50 }, { date := 3, action := Action.BUY, price := 100, shares := 0 }, { date := 4, action := Action.SELL, price := 100, shares := 0 }],
      equity := [{ date := 1, equity := 5000 }, { date := 2, equity := 0 }, { date := 3, equity := 0 }, { date := 4, equity := 0 }] } := by
  have h1 : stateAt bars5 sigsRT 10000 10000 0 1 =
      { pos := Pos.long, cash := 0, shares := 50,
        trades := [{ date := 1, action := Action.BUY, price := 100, shares := 50 }],
        equity := [{ date := 1, equity := 5000 }] } := by
    rw [stateAt_eval bars5 sigsRT 10000 10000 0 0 1 _ rfl (by norm_num [bars5]) (stateAt_zero _ _ _ _ _)]
    rw [show sigAt sigsRT 0 = Action.BUY from rfl, step_buy _ _ _ _ _ rfl]
    norm_num [bars5, dBar]
  have h2 : stateAt bars5 sigsRT 10000 10000 0 2 =
      { pos := Pos.flat, cash := 0, shares := 0,
        trades := [{ date := 1, action := Action.BUY, price := 100, shares := 50 }, { date := 2, action := Action.SELL, price := 100, shares := 50 }],
        equity := [{ date := 1, equity := 5000 }, { date := 2, equity := 0 }] } := by
    rw [stateAt_eval bars5 sigsRT 10000 10000 0 1 2 _ rfl (by norm_num [bars5]) h1]
    rw [show sigAt sigsRT 1 = Action.SELL from rfl, step_sell _ _ _ _ _ rfl]
    norm_num [bars5, dBar]
  have h3 : stateAt bars5 sigsRT 10000 10000 0 3 =
      { pos := Pos.long, cash := 0, shares := 0,
        trades := [{ date := 1, action := Action.BUY, price := 100, shares := 50 }, { date := 2, action := Action.SELL, price := 100, shares := 50 }, { date := 3, action := Action.BUY, price := 100, shares := 0 }],
        equity := [{ date := 1, equity := 5000 }, { date := 2, equity := 0 }, { date := 3, equity := 0 }] } := by
    rw [stateAt_eval bars5 sigsRT 10000 10000 0 2 3 _ rfl (by norm_num [bars5]) h2]
    rw [show sigAt sigsRT 2 = Action.BUY from rfl, step_buy _ _ _ _ _ rfl]
    norm_num [bars5, dBar]
  rw [stateAt_eval bars5 sigsRT 10000 10000 0 3 4 _ rfl (by norm_num [bars5]) h3]
  rw [show sigAt sigsRT 3 = Action.SELL from rfl, step_sell _ _ _ _ _ rfl]
  norm_num [bars5, dBar]

/-- The engine state after two round trips at 20000 bps fee (a 200% cost):
negative cash and shares interact to yield a positive final equity. -/
lemma stateRTb_4 : stateAt bars5 sigsRT 10000 20000 0 4 =
    { pos := Pos.flat, cash := 10000 / 9, shares := 0,
      trades := [{ date := 1, action := Action.BUY, price := 100, shares := 100 / 3 }, { date := 2, action := Action.SELL, price := 100, shares := 100 / 3 }, { date := 3, action := Action.BUY, price := 100, shares := -(100 / 9) }, { date := 4, action := Action.SELL, price := 100, shares := -(100 / 9) }],
      equity := [{ date := 1, equity := 10000 / 3 }, { date := 2, equity := -(10000 / 3) }, { date := 3, equity := -(10000 / 9) }, { date := 4, equity := 10000 / 9 }] } := by
  have h1 : stateAt bars5 sigsRT 10000 20000 0 1 =
      { pos := Pos.long, cash := 0, shares := 100 / 3,
        trades := [{ date := 1, action := Action.BUY, price := 100, shares := 100 / 3 }],
        equity := [{ date := 1, equity := 10000 / 3 }] } := by
    rw [stateAt_eval bars5 sigsRT 10000 20000 0 0 1 _ rfl (by norm_num [bars5]) (stateAt_zero _ _ _ _ _)]
    rw [show sigAt sigsRT 0 = Action.BUY from rfl, step_buy _ _ _ _ _ rfl]
    norm_num [bars5, dBar]
  have h2 : stateAt bars5 sigsRT 10000 20000 0 2 =
      { pos := Pos.flat, cash := -(10000 / 3), shares := 0,
        trades := [{ date := 1, action := Action.BUY, price := 100, shares := 100 / 3 }, { date := 2, action := Action.SELL, price := 100, shares := 100 / 3 }],
        equity := [{ date := 1, equity := 10000 / 3 }, { date := 2, equity := -(10000 / 3) }] } := by
    rw [stateAt_eval bars5 sigsRT 10000 20000 0 1 2 _ rfl (by norm_num [bars5]) h1]
    rw [show sigAt sigsRT 1 = Action.SELL from rfl, step_sell _ _ _ _ _ rfl]
    norm_num [bars5, dBar]
  have h3 : stateAt bars5 sigsRT 10000 20000 0 3 =
      { pos := Pos.long, cash := 0, shares := -(100 / 9),
        trades := [{ date := 1, action := Action.BUY, price := 100, shares := 100 / 3 }, { date := 2, action := Action.SELL, price := 100, shares := 100 / 3 }, { date := 3, action := Action.BUY, price := 100, shares := -(100 / 9) }],
        equity := [{ date := 1, equity := 10000 / 3 }, { date := 2, equity := -(10000 / 3) }, { date := 3, equity := -(10000 / 9) }] } := by
    rw [stateAt_eval bars5 sigsRT 10000 20000 0 2 3 _ rfl (by norm_num [bars5]) h2]
    rw [show sigAt sigsRT 2 = Action.BUY from rfl, step_buy _ _ _ _ _ rfl]
    norm_num [bars5, dBar]
  rw [stateAt_eval bars5 sigsRT 10000 20000 0 3 4 _ rfl (by norm_num [bars5]) h3]
  rw [show sigAt sigsRT 3 = Action.SELL from rfl, step_sell _ _ _ _ _ rfl]
  norm_num [bars5, dBar]

/-- C7 is false on the code as universally stated: with a 100%-plus cost
setting, raising `fee_bps` from 10000 to 20000 on two back-to-back round
trips RAISES the final equity from 0 to 10000/9 (negative cash bought
negative shares, and selling them at a >100% discount yields positive
cash). -/
theorem C7_counterexample :
    (10000 : ℚ) < 20000 ∧
    lastEquityD bars5 sigsRT 10000 10000 0 < lastEquityD bars5 sigsRT 10000 20000 0 := by
  refine ⟨by norm_num, ?_⟩
  have ra : run bars5 sigsRT 10000 10000 0 = Except.ok
      ((stateAt bars5 sigsRT 10000 10000 0 4).trades,
       (stateAt bars5 sigsRT 10000 10000 0 4).equity) := by
    have := run_ok_of bars5 sigsRT 10000 10000 0 (by norm_num [bars5]) (by simp [sigsRT])
    rwa [show bars5.length - 1 = 4 from by norm_num [bars5]] at this
  have rb : run bars5 sigsRT 10000 20000 0 = Except.ok
      ((stateAt bars5 sigsRT 10000 20000 0 4).trades,
       (stateAt bars5 sigsRT 10000 20000 0 4).equity) := by
    have := run_ok_of bars5 sigsRT 10000 20000 0 (by norm_num [bars5]) (by simp [sigsRT])
    rwa [show bars5.length - 1 = 4 from by norm_num [bars5]] at this
  rw [lastEquityD_ok bars5 sigsRT 10000 10000 0 _ ra,
    lastEquityD_ok bars5 sigsRT 10000 20000 0 _ rb]
  rw [stateRTa_4, stateRTb_4]
  norm_num [List.getLastD]

end StockAnalysis

namespace StockAnalysis

lemma zipWith_dd_scale : ∀ (l1 l2 : List ℚ),
    List.zipWith (fun e m => (e / m - 1) * 100) l1 l2 =
      (List.zipWith (fun e m => e / m - 1) l1 l2).map (fun z => z * 100) := by
  intro l1
  induction l1 with
  | nil => intro l2; simp
  | cons x xs ih => intro l2; cases l2 <;> simp [ih]

lemma min_scale (a b : ℚ) : min (a * 100) (b * 100) = min a b * 100 := by
  rcases le_total a b with h | h
  · rw [min_eq_left (by linarith), min_eq_left h]
  · rw [min_eq_right (by linarith), min_eq_right h]

lemma foldl_min_scale : ∀ (xs : List ℚ) (a : ℚ),
    List.foldl min (a * 100) (xs.map (fun z => z * 100)) = List.foldl min a xs * 100 := by
  intro xs
  induction xs with
  | nil => intro a; simp
  | cons y ys ih => intro a; simp only [List.map_cons, List.foldl_cons, min_scale, ih]

lemma seriesMin_scale (l : List ℚ) :
    seriesMin (l.map (fun z => z * 100)) = seriesMin l * 100 := by
  cases l with
  | nil => simp [seriesMin]
  | cons x xs => simp only [List.map_cons, seriesMin, foldl_min_scale]

/-- C8 is false on the code: on the two-point equity curve `[4, 2]` the
extended path reports a max drawdown of `-50` (percent) while the legacy
path reports `-1/2` (fraction) — the two paths do not yield the same
values. -/
theorem C8_counterexample :
    maxDrawdown_ext [4, 2] = -50 ∧ maxDrawdown_legacy [4, 2] = -(1 / 2) ∧
    maxDrawdown_ext [4, 2] ≠ maxDrawdown_legacy [4, 2] := by
  refine ⟨?_, ?_, ?_⟩ <;>
    norm_num [maxDrawdown_ext, maxDrawdown_legacy, cummax, cummaxAux, seriesMin]

/-- C8 (amended): the two paths share the drawdown formula but differ in
units — for every equity curve with positive starting equity the extended
path's max drawdown is exactly `100 ×` the legacy path's. -/
theorem C8_amended (eq : List ℚ) (h : 0 < eq.headD 0) :
    maxDrawdown_ext eq = 100 * maxDrawdown_legacy eq := by
  match eq with
  | [] => simp [List.headD] at h
  | [x] =>
    have hx : x ≠ 0 := by
      have : (0:ℚ) < x := by simpa [List.headD] using h
      exact ne_of_gt this
    simp [maxDrawdown_ext, maxDrawdown_legacy, cummax, cummaxAux, seriesMin, div_self hx]
  | x :: y :: ys =>
    rw [maxDrawdown_ext, if_pos (by simp)]
    rw [zipWith_dd_scale, seriesMin_scale, maxDrawdown_legacy, mul_comm]

/-- Witness for C8 (amended) at the curve `[4, 2]`. -/
theorem C8_amended_witness :
    maxDrawdown_ext [4, 2] = 100 * maxDrawdown_legacy [4, 2] :=
  C8_amended [4, 2] (by norm_num [List.headD])

/-- C9 is false on the code: the legacy path has no guard for non-positive
starting equity — on the curve `[-1, -4]` (starting equity `-1 ≤ 0`) it
returns `4^126 - 1 ≠ 0` instead of the claimed `0`. -/
theorem C9_counterexample :
    cagr_legacy 252 [(-1 : ℝ), -4] ≠ 0 ∧ ([(-1 : ℝ), -4].headD 0 ≤ 0) := by
  constructor
  · rw [cagr_legacy, if_pos (by norm_num)]
    norm_num
  · norm_num

/-- C9 (amended): CAGR on the two paths: both return `0` on curves with
fewer than 2 points; with at least 2 points the legacy path returns
`(eq[-1]/eq[0])^(252/n) - 1` with no positivity guard, while the extended
path returns `100 ×` that quantity when the starting equity is positive and
`0` otherwise. -/
theorem C9_amended (eq : List ℝ) :
    (eq.length ≤ 1 → cagr_legacy 252 eq = 0 ∧ cagr_ext 252 eq = 0) ∧
    (2 ≤ eq.length →
      cagr_legacy 252 eq =
        (eq.getLastD 0 / eq.headD 0) ^ ((252 : ℝ) / (eq.length : ℝ)) - 1) ∧
    (2 ≤ eq.length → 0 < eq.headD 0 →
      cagr_ext 252 eq =
        ((eq.getLastD 0 / eq.headD 0) ^ ((252 : ℝ) / (eq.length : ℝ)) - 1) * 100) ∧
    (eq.headD 0 ≤ 0 → cagr_ext 252 eq = 0) := by
  refine ⟨?_, ?_, ?_, ?_⟩
  · intro hlen
    constructor
    · rw [cagr_legacy, if_neg (by omega)]
    · rw [cagr_ext, if_neg (by intro hcon; omega)]
  · intro hlen
    rw [cagr_legacy, if_pos (by omega)]
    norm_num
  · intro hlen hpos
    have hlpos : (0 : ℝ) < (eq.length : ℝ) / ((252 : ℕ) : ℝ) := by
      apply div_pos
      · exact_mod_cast Nat.lt_of_lt_of_le (by norm_num) hlen
      · norm_num
    rw [cagr_ext, if_pos ⟨by omega, hpos⟩, if_pos (by exact_mod_cast hlpos)]
    rw [one_div_div]
    norm_num
  · intro hle
    rw [cagr_ext, if_neg (fun hcon => absurd hcon.2 (not_lt.mpr hle))]

/-- Witness for C9 (amended) at the curve `[1, 4]`. -/
theorem C9_amended_witness :
    cagr_legacy 252 [(1 : ℝ), 4] =
      (([(1 : ℝ), 4].getLastD 0 / [(1 : ℝ), 4].headD 0) ^
        ((252 : ℝ) / ([(1 : ℝ), 4].length : ℝ)) - 1) ∧
    cagr_ext 252 [(1 : ℝ), 4] =
      (([(1 : ℝ), 4].getLastD 0 / [(1 : ℝ), 4].headD 0) ^
        ((252 : ℝ) / ([(1 : ℝ), 4].length : ℝ)) - 1) * 100 :=
  ⟨(C9_amended [(1 : ℝ), 4]).2.1 (by norm_num),
   (C9_amended [(1 : ℝ), 4]).2.2.1 (by norm_num) (by norm_num [List.headD])⟩

end StockAnalysis

namespace StockAnalysis

lemma runTradesD_error (bars : List Bar) (sigs : List Action) (cap f s : ℚ)
    (e : RunError) (h : run bars sigs cap f s = Except.error e) :
    runTradesD bars sigs cap f s = [] := by
  rw [runTradesD, h]

/-- The `(date, action, price)` components of the trade log do not depend on
the cost parameters (only the `shares` component does). -/
lemma stateAt_keys (bars : List Bar) (sigs : List Action) (cap f1 s1 f2 s2 : ℚ) :
    ∀ t, (stateAt bars sigs cap f2 s2 t).pos = (stateAt bars sigs cap f1 s1 t).pos ∧
      tradeKeys (stateAt bars sigs cap f2 s2 t).trades =
        tradeKeys (stateAt bars sigs cap f1 s1 t).trades := by
  intro t
  induction t with
  | zero => simp [stateAt_zero]
  | succ t ih =>
    obtain ⟨hpos, hkeys⟩ := ih
    by_cases hlt : t + 1 < bars.length
    · rw [stateAt_succ_lt bars sigs cap f1 s1 t hlt,
        stateAt_succ_lt bars sigs cap f2 s2 t hlt]
      cases hA : sigAt sigs t with
      | BUY =>
        cases hP : (stateAt bars sigs cap f1 s1 t).pos with
        | flat =>
          have hP2 : (stateAt bars sigs cap f2 s2 t).pos = Pos.flat := by rw [hpos, hP]
          rw [step_buy f1 s1 (t + 1) _ _ hP, step_buy f2 s2 (t + 1) _ _ hP2]
          refine ⟨rfl, ?_⟩
          simp only [tradeKeys] at hkeys ⊢
          simp [hkeys]
        | long =>
          have hP2 : (stateAt bars sigs cap f2 s2 t).pos = Pos.long := by rw [hpos, hP]
          rw [step_buy_long f1 s1 (t + 1) _ _ hP, step_buy_long f2 s2 (t + 1) _ _ hP2]
          exact ⟨hpos, hkeys⟩
      | SELL =>
        cases hP : (stateAt bars sigs cap f1 s1 t).pos with
        | flat =>
          have hP2 : (stateAt bars sigs cap f2 s2 t).pos = Pos.flat := by rw [hpos, hP]
          rw [step_sell_flat f1 s1 (t + 1) _ _ hP, step_sell_flat f2 s2 (t + 1) _ _ hP2]
          exact ⟨hpos, hkeys⟩
        | long =>
          have hP2 : (stateAt bars sigs cap f2 s2 t).pos = Pos.long := by rw [hpos, hP]
          rw [step_sell f1 s1 (t + 1) _ _ hP, step_sell f2 s2 (t + 1) _ _ hP2]
          refine ⟨rfl, ?_⟩
          simp only [tradeKeys] at hkeys ⊢
          simp [hkeys]
      | HOLD =>
        rw [step_hold, step_hold]
        exact ⟨hpos, hkeys⟩
    · rw [stateAt_succ_ge bars sigs cap f1 s1 t hlt,
        stateAt_succ_ge bars sigs cap f2 s2 t hlt]
      exact ⟨hpos, hkeys⟩

/-- Every recorded trade's `price` field is the raw opening price of the
bar it was filled at. -/
lemma stateAt_price_raw (bars : List Bar) (sigs : List Action) (cap f s : ℚ) :
    ∀ t, ∀ tr ∈ (stateAt bars sigs cap f s t).trades,
      tr.price = (bars.getD tr.date dBar).openPx := by
  intro t
  induction t with
  | zero => simp [stateAt_zero]
  | succ t ih =>
    by_cases hlt : t + 1 < bars.length
    · rw [stateAt_succ_lt bars sigs cap f s t hlt]
      cases hA : sigAt sigs t with
      | BUY =>
        cases hP : (stateAt bars sigs cap f s t).pos with
        | flat =>
          rw [step_buy f s (t + 1) _ _ hP]
          intro tr htr
          rcases List.mem_append.mp htr with h | h
          · exact ih tr h
          · rcases List.mem_singleton.mp h with rfl
            rfl
        | long =>
          rw [step_buy_long f s (t + 1) _ _ hP]
          exact ih
      | SELL =>
        cases hP : (stateAt bars sigs cap f s t).pos with
        | flat =>
          rw [step_sell_flat f s (t + 1) _ _ hP]
          exact ih
        | long =>
          rw [step_sell f s (t + 1) _ _ hP]
          intro tr htr
          rcases List.mem_append.mp htr with h | h
          · exact ih tr h
          · rcases List.mem_singleton.mp h with rfl
            rfl
      | HOLD =>
        rw [step_hold]
        exact ih
    · rw [stateAt_succ_ge bars sigs cap f s t hlt]
      exact ih

/-- C10: every Trade records the raw opening price `open[t]`, not the fee-
and slippage-adjusted effective fill price, and consequently the win-rate
pairing of `compute_metrics` — which reads only the `(date, action, price)`
components — is entirely independent of `fee_bps`/`slippage_bps`. -/
theorem C10_raw_price (bars : List Bar) (sigs : List Action) (cap f1 s1 f2 s2 : ℚ) :
    tradeKeys (runTradesD bars sigs cap f1 s1) =
      tradeKeys (runTradesD bars sigs cap f2 s2) ∧
    (∀ tr ∈ runTradesD bars sigs cap f1 s1,
      tr.price = (bars.getD tr.date dBar).openPx) ∧
    win_rate (runTradesD bars sigs cap f1 s1) =
      win_rate (runTradesD bars sigs cap f2 s2) := by
  have hmain : tradeKeys (runTradesD bars sigs cap f1 s1) =
      tradeKeys (runTradesD bars sigs cap f2 s2) ∧
      (∀ tr ∈ runTradesD bars sigs cap f1 s1,
        tr.price = (bars.getD tr.date dBar).openPx) := by
    by_cases hbs : bars.isEmpty ∨ sigs.isEmpty
    · have h1 : run bars sigs cap f1 s1 = Except.error
          (RunError.valueError "데이터/시그널이 비어있습니다") := by rw [run, if_pos hbs]
      have h2 : run bars sigs cap f2 s2 = Except.error
          (RunError.valueError "데이터/시그널이 비어있습니다") := by rw [run, if_pos hbs]
      rw [runTradesD_error bars sigs cap f1 s1 _ h1, runTradesD_error bars sigs cap f2 s2 _ h2]
      simp [tradeKeys]
    · obtain ⟨hb1, hb2⟩ := not_or.mp hbs
      have hb' : bars ≠ [] := fun h => hb1 (by simp [h])
      have hs' : sigs ≠ [] := fun h => hb2 (by simp [h])
      by_cases hlen : 2 ≤ bars.length
      · rw [runTradesD_ok bars sigs cap f1 s1 _ (run_ok_of bars sigs cap f1 s1 hlen hs'),
          runTradesD_ok bars sigs cap f2 s2 _ (run_ok_of bars sigs cap f2 s2 hlen hs')]
        exact ⟨((stateAt_keys bars sigs cap f1 s1 f2 s2 (bars.length - 1)).2).symm,
          stateAt_price_raw bars sigs cap f1 s1 (bars.length - 1)⟩
      · have h1 : bars.length = 1 := by
          have := List.length_pos.mpr hb'
          omega
        rw [runTradesD_error bars sigs cap f1 s1 _ (run_one_bar bars sigs cap f1 s1 hb' hs' h1),
          runTradesD_error bars sigs cap f2 s2 _ (run_one_bar bars sigs cap f2 s2 hb' hs' h1)]
        simp [tradeKeys]
  refine ⟨hmain.1, hmain.2, ?_⟩
  rw [win_rate, win_rate, hmain.1]

/-- Witness for C10 at scenario B: the first trade of the zero-cost run
records the raw open 102, and the win rate agrees between the (0, 0) and
(10, 5) cost settings. -/
theorem C10_raw_price_witness :
    ({ date := 2, action := Action.BUY, price := 102, shares := 5000 / 51 } : Trade).price
      = (barsB.getD 2 dBar).openPx ∧
    win_rate (runTradesD barsB sigsB 10000 0 0) =
      win_rate (runTradesD barsB sigsB 10000 10 5) := by
  constructor
  · apply (C10_raw_price barsB sigsB 10000 0 0 10 5).2.1
    rw [runTradesD_ok barsB sigsB 10000 0 0 _ runB]
    simp
  · exact (C10_raw_price barsB sigsB 10000 0 0 10 5).2.2

end StockAnalysis

namespace StockAnalysis

lemma rowsOf_length (cs : List ℚ) : (rowsOf cs).length = cs.length := by
  simp [rowsOf]

lemma warmupTrim_length {α : Type} (w : ℕ) (rows : List α) (h : rows ≠ []) :
    (warmupTrim w rows).length = max 1 (rows.length - w) := by
  match rows with
  | [] => exact absurd rfl h
  | r :: rest =>
    rw [warmupTrim]
    split
    · simp only [List.length_singleton]
      omega
    · simp only [List.length_drop]
      have : ¬((r :: rest).length ≤ w) := by assumption
      omega

lemma missingCol_none_iff (b : BarsFrame) :
    missingCol b = none ↔ (b.hasClose ∧ b.hasOpen ∧ b.hasDailyReturn ∧ b.hasVolatility) := by
  rcases b with ⟨cs, h1, h2, h3, h4⟩
  cases h1 <;> cases h2 <;> cases h3 <;> cases h4 <;> simp [missingCol]

/-- C3 is false as universally stated: on the empty bar series (with all
required columns present) `compute_signals` returns an empty signal series
of length `0`, not `max 1 (0 - warmup) = 1`. -/
theorem C3_counterexample :
    compute_signals frameEmpty 200 = Except.ok [] ∧
    (0 : ℕ) ≠ max 1 (frameEmpty.close.length - 200) := by
  constructor
  · rfl
  · norm_num [frameEmpty]

/-- C3 (amended): for every NON-EMPTY bar series with all required columns
present and every warmup, the output has length `max 1 (input length -
warmup)`: exactly the last row when `input length ≤ warmup`, and the input
with the first `warmup` rows dropped otherwise.  (The empty series returns
an empty output.) -/
theorem C3_amended (b : BarsFrame) (w : ℕ) (hcols : missingCol b = none)
    (hne : b.close ≠ []) :
    ∃ rows, compute_signals b w = Except.ok rows ∧
      rows.length = max 1 (b.close.length - w) ∧
      (b.close.length ≤ w →
        rows = [(rowsOf b.close).getLastD { close := 0, action := Action.HOLD }]) ∧
      (w < b.close.length → rows = (rowsOf b.close).drop w) := by
  have hrne : rowsOf b.close ≠ [] := by
    intro hcon
    apply hne
    have := congrArg List.length hcon
    rw [rowsOf_length] at this
    exact List.length_eq_zero.mp this
  refine ⟨warmupTrim w (rowsOf b.close), ?_, ?_, ?_, ?_⟩
  · rw [compute_signals, hcols]
  · rw [warmupTrim_length w (rowsOf b.close) hrne, rowsOf_length]
  · intro hle
    match hr : rowsOf b.close with
    | [] => exact absurd hr hrne
    | r :: rest =>
      rw [warmupTrim]
      rw [if_pos (by rw [← hr, rowsOf_length]; exact hle)]
      rw [List.getLastD_cons, List.getLast_eq_getLastD]
  · intro hlt
    match hr : rowsOf b.close with
    | [] => exact absurd hr hrne
    | r :: rest =>
      rw [warmupTrim]
      rw [if_neg (by rw [← hr, rowsOf_length]; omega)]

/-- Witness for C3 (amended) on a 3-row frame with warmup 2. -/
theorem C3_amended_witness :
    ∃ rows, compute_signals frame3 2 = Except.ok rows ∧
      rows.length = max 1 (frame3.close.length - 2) ∧
      (frame3.close.length ≤ 2 →
        rows = [(rowsOf frame3.close).getLastD { close := 0, action := Action.HOLD }]) ∧
      (2 < frame3.close.length → rows = (rowsOf frame3.close).drop 2) :=
  C3_amended frame3 2 rfl (by simp [frame3])

/-- C4 (amended): `compute_signals` fails with the missing-column
`ValueError` exactly when some required column is absent; with all columns
present it never raises, and an input of length between 1 and `warmup`
yields exactly one trailing row — whose action need NOT be HOLD. -/
theorem C4_amended (b : BarsFrame) (w : ℕ) :
    ((∃ m, compute_signals b w = Except.error m) ↔
      ¬(b.hasClose ∧ b.hasOpen ∧ b.hasDailyReturn ∧ b.hasVolatility)) ∧
    (missingCol b = none → ∃ rows, compute_signals b w = Except.ok rows) ∧
    (missingCol b = none → 1 ≤ b.close.length → b.close.length ≤ w →
      ∃ r, compute_signals b w = Except.ok [r]) := by
  refine ⟨?_, ?_, ?_⟩
  · constructor
    · rintro ⟨m, hm⟩
      intro hall
      rw [compute_signals, (missingCol_none_iff b).mpr hall] at hm
      exact Except.noConfusion hm
    · intro hnot
      cases hmc : missingCol b with
      | none => exact absurd ((missingCol_none_iff b).mp hmc) hnot
      | some c => exact ⟨"필수 컬럼 없음: " ++ c, by rw [compute_signals, hmc]⟩
  · intro hcols
    exact ⟨warmupTrim w (rowsOf b.close), by rw [compute_signals, hcols]⟩
  · intro hcols hlen hle
    match hr : rowsOf b.close with
    | [] =>
      exfalso
      have h0 := congrArg List.length hr
      rw [rowsOf_length] at h0
      simp only [List.length_nil] at h0
      omega
    | r :: rest =>
      refine ⟨(r :: rest).getLast (by simp), ?_⟩
      rw [compute_signals, hcols, hr, warmupTrim,
        if_pos (by rw [← hr, rowsOf_length]; exact hle)]

/-- Witness for C4 (amended) on a 3-row frame with warmup 5. -/
theorem C4_amended_witness :
    ∃ r, compute_signals frame3 5 = Except.ok [r] :=
  (C4_amended frame3 5).2.2 rfl (by norm_num [frame3]) (by norm_num [frame3])

end StockAnalysis

namespace StockAnalysis

lemma ewma_zero (a : ℚ) (cs : List ℚ) : ewma a cs 0 = closeAt cs 0 := rfl

lemma ewma_succ (a : ℚ) (cs : List ℚ) (i : ℕ) :
    ewma a cs (i + 1) = (1 - a) * ewma a cs i + a * closeAt cs (i + 1) := rfl

lemma signalLine_zero (cs : List ℚ) : signalLine cs 0 = macdLine cs 0 := rfl

lemma signalLine_succ (cs : List ℚ) (i : ℕ) :
    signalLine cs (i + 1) = (1 - 1/5) * signalLine cs i + (1/5) * macdLine cs (i + 1) := rfl

/-- MACD line values on the jump frame `[100, 100, 110, 100]`. -/
lemma macdJump : macdLine frameJump.close 1 = 0 ∧ macdLine frameJump.close 2 = 280 / 351 ∧
    signalLine frameJump.close 1 = 0 ∧ signalLine frameJump.close 2 = 56 / 351 := by
  have c0 : closeAt frameJump.close 0 = 100 := rfl
  have c1 : closeAt frameJump.close (0 + 1) = 100 := rfl
  have c2 : closeAt frameJump.close (1 + 1) = 110 := rfl
  have e13_1 : ewma (2/13) frameJump.close 1 = 100 := by
    rw [show (1:ℕ) = 0 + 1 from rfl, ewma_succ, ewma_zero, c0, c1]
    norm_num
  have e27_1 : ewma (2/27) frameJump.close 1 = 100 := by
    rw [show (1:ℕ) = 0 + 1 from rfl, ewma_succ, ewma_zero, c0, c1]
    norm_num
  have e13_2 : ewma (2/13) frameJump.close 2 = 1320 / 13 := by
    rw [show (2:ℕ) = 1 + 1 from rfl, ewma_succ, e13_1, c2]
    norm_num
  have e27_2 : ewma (2/27) frameJump.close 2 = 2720 / 27 := by
    rw [show (2:ℕ) = 1 + 1 from rfl, ewma_succ, e27_1, c2]
    norm_num
  have hm0 : macdLine frameJump.close 0 = 0 := by
    rw [macdLine, ewma_zero, ewma_zero, c0]
    norm_num
  have hm1 : macdLine frameJump.close 1 = 0 := by
    rw [macdLine, e13_1, e27_1]
    norm_num
  have hm2 : macdLine frameJump.close 2 = 280 / 351 := by
    rw [macdLine, e13_2, e27_2]
    norm_num
  have hs1 : signalLine frameJump.close 1 = 0 := by
    rw [show (1:ℕ) = 0 + 1 from rfl, signalLine_succ, signalLine_zero, hm0, hm1]
    norm_num
  have hs2 : signalLine frameJump.close 2 = 56 / 351 := by
    rw [show (2:ℕ) = 1 + 1 from rfl, signalLine_succ, hs1, hm2]
    norm_num
  exact ⟨hm1, hm2, hs1, hs2⟩

/-- On the jump frame the discrete MACD cross-up event fires at index 3. -/
lemma upEvtJump : upEvt frameJump.close 3 = true := by
  obtain ⟨hm1, hm2, hs1, hs2⟩ := macdJump
  have h1 : macdNow frameJump.close 3 = some (macdLine frameJump.close 2) := by
    rw [macdNow, shiftO]
    norm_num
  have h2 : signalNow frameJump.close 3 = some (signalLine frameJump.close 2) := by
    rw [signalNow, shiftO]
    norm_num
  have h3 : macdPrev frameJump.close 3 = some (macdLine frameJump.close 1) := by
    rw [macdPrev, shift2O]
    norm_num
  have h4 : signalPrev frameJump.close 3 = some (signalLine frameJump.close 1) := by
    rw [signalPrev, shift2O]
    norm_num
  rw [upEvt, h1, h2, h3, h4, hm1, hm2, hs1, hs2]
  rw [oGt]
  simp only [oLt, oLe]
  norm_num

/-- C4 is false in its "single trailing HOLD row" part: on the 4-row frame
with closes `[100, 100, 110, 100]` (all required columns present and length
≤ warmup = 200) the single returned row carries action BUY — the MACD
cross-up event at the last row fires — not HOLD. -/
theorem C4_counterexample :
    (compute_signalsD frameJump 200).map SigRow.action = [Action.BUY] ∧
    frameJump.close.length ≤ 200 ∧ missingCol frameJump = none := by
  have hact : actionAt frameJump.close 3 = Action.BUY := by
    have hbr : buyRule frameJump.close 3 = true := by
      rw [buyRule, upEvtJump, Bool.or_true]
    rw [actionAt, if_pos hbr]
  refine ⟨?_, by norm_num [frameJump], rfl⟩
  have hrange : List.range frameJump.close.length = [0, 1, 2, 3] := by
    rw [show frameJump.close.length = 4 from rfl]
    decide
  rw [compute_signalsD, compute_signals, show missingCol frameJump = none from rfl]
  rw [rowsOf, hrange]
  simp only [List.map_cons, List.map_nil]
  rw [warmupTrim, if_pos (by norm_num)]
  simp only [List.getLast, List.map_cons, List.map_nil]
  rw [hact]

end StockAnalysis
